import Mathlib

/-!
Verification of the udpforwarder relay: a shallow embedding of the
address-specification parser (`src/args.rs`, `src/listener.rs`) and of the
socket-family-aware forwarding engine (`src/forwarding.rs`), with theorems
settling the specification claims about them.

Standard-library primitives used by the source (the `std::net` string
parsers, socket binding, receiving and sending) are modelled as explicit
oracle parameters; everything written in the repository itself is embedded
as executable Lean definitions mirroring the Rust control flow.
-/

set_option autoImplicit false

namespace UdpForwarder

/-! ## Data model: IP and socket addresses (mirroring `std::net`) -/

/-- An IPv4 address: four octets. -/
structure Ipv4Addr where
  o0 : Nat
  o1 : Nat
  o2 : Nat
  o3 : Nat
deriving DecidableEq, Repr

/-- `Ipv4Addr::UNSPECIFIED`, i.e. `0.0.0.0`. -/
def Ipv4Addr.UNSPECIFIED : Ipv4Addr := ⟨0, 0, 0, 0⟩

/-- `Ipv4Addr::is_multicast`: the first octet lies in `224 ..= 239`. -/
def Ipv4Addr.is_multicast (a : Ipv4Addr) : Bool :=
  decide (224 ≤ a.o0) && decide (a.o0 ≤ 239)

/-- An IPv6 address: eight 16-bit segments. -/
structure Ipv6Addr where
  s0 : Nat
  s1 : Nat
  s2 : Nat
  s3 : Nat
  s4 : Nat
  s5 : Nat
  s6 : Nat
  s7 : Nat
deriving DecidableEq, Repr

/-- `Ipv6Addr::is_multicast`: the first segment masked with `0xff00` equals `0xff00`. -/
def Ipv6Addr.is_multicast (a : Ipv6Addr) : Bool :=
  a.s0 &&& 0xff00 == 0xff00

/-- `std::net::SocketAddrV4`: IPv4 address plus port. -/
structure SocketAddrV4 where
  ip : Ipv4Addr
  port : Nat
deriving DecidableEq, Repr

/-- `std::net::SocketAddrV6`: IPv6 address, port, flow info and scope id. -/
structure SocketAddrV6 where
  ip : Ipv6Addr
  port : Nat
  flowinfo : Nat
  scope_id : Nat
deriving DecidableEq, Repr

/-- `std::net::SocketAddr`. -/
inductive SocketAddr where
  | V4 (addr : SocketAddrV4)
  | V6 (addr : SocketAddrV6)
deriving DecidableEq, Repr

/-- `SocketAddr::is_ipv4`. -/
def SocketAddr.is_ipv4 : SocketAddr → Bool
  | .V4 _ => true
  | .V6 _ => false

/-- `SocketAddr::is_ipv6`. -/
def SocketAddr.is_ipv6 : SocketAddr → Bool
  | .V4 _ => false
  | .V6 _ => true

/-- Whether the IP carried by a socket address is multicast (`addr.ip().is_multicast()`). -/
def SocketAddr.ipIsMulticast : SocketAddr → Bool
  | .V4 a => a.ip.is_multicast
  | .V6 a => a.ip.is_multicast

/-! ## `ListenerSpec` (`src/listener.rs`) -/

/-- Specification of the UDP listener (`ListenerSpec` in `src/listener.rs`). -/
inductive ListenerSpec where
  /-- Incoming unicast stream, IPv4 or IPv6. -/
  | Unicast (addr : SocketAddr)
  /-- IPv4 multicast group to join, with local address of the interface to use. -/
  | MulticastV4 (multicast_group : SocketAddrV4) (local_addr : Ipv4Addr)
  /-- IPv6 multicast group to join, with ID of the interface to use (a `u32`). -/
  | MulticastV6 (multicast_group : SocketAddrV6) (interface_id : Nat)
deriving DecidableEq, Repr

/-! ## Standard-library string parsers as oracles

The source calls `str::parse` for `SocketAddr`, `Ipv4Addr` and `u32`; those
parsers live in `std::net` / `core`, outside this repository, so they enter
the embedding as an explicit bundle of functions. `AddrParseError` is the
(opaque) error value `SocketAddr::from_str` returns. -/

/-- The error of `std::net` address parsing; its payload is an opaque kind tag. -/
structure AddrParseError where
  kind : Nat
deriving DecidableEq, Repr

/-- The bundle of `std` string parsers the source relies on. -/
structure StdParsers where
  /-- `str::parse::<SocketAddr>` -/
  parseSocketAddr : String → Except AddrParseError SocketAddr
  /-- `str::parse::<Ipv4Addr>` (success/failure only; the listener path discards the error) -/
  parseIpv4 : String → Option Ipv4Addr
  /-- `str::parse::<u32>` (success/failure only) -/
  parseU32 : String → Option Nat

/-- `str::split_once` on a list of characters: split at the first occurrence
of `c`, returning the parts before and after it. -/
def splitOnceChars (c : Char) : List Char → Option (List Char × List Char)
  | [] => none
  | x :: xs =>
    if x = c then some ([], xs)
    else (splitOnceChars c xs).map fun p => (x :: p.1, p.2)

/-- `str::split_once` on a `String`. -/
def splitOnce (s : String) (c : Char) : Option (String × String) :=
  (splitOnceChars c s.toList).map fun p => (String.mk p.1, String.mk p.2)

/-! ## `ListenerSpec::from_str` (`src/args.rs`, lines 64–126) -/

/-- `ListenerSpec::from_str`, with the `std` parsers passed explicitly.
Mirrors the source: first try the whole string as a bare socket address
(multicast IPs become the multicast variant with default interface
selection, others become `Unicast`); otherwise split on the first `/` and
accept only a multicast group whose detail part parses per its family. -/
def ListenerSpec.fromStr (P : StdParsers) (s : String) : Option ListenerSpec :=
  match P.parseSocketAddr s with
  | .ok addr =>
    match addr with
    | .V4 addr_v4 =>
      if addr_v4.ip.is_multicast then
        some (ListenerSpec.MulticastV4 addr_v4 Ipv4Addr.UNSPECIFIED)
      else
        some (ListenerSpec.Unicast addr)
    | .V6 addr_v6 =>
      if addr_v6.ip.is_multicast then
        some (ListenerSpec.MulticastV6 addr_v6 0)
      else
        some (ListenerSpec.Unicast addr)
  | .error _ =>
    match splitOnce s (Char.ofNat 47) with
    | none => none
    | some (multicast_group, local_intf) =>
      match P.parseSocketAddr multicast_group with
      | .ok (.V4 mg) =>
        if mg.ip.is_multicast then
          match P.parseIpv4 local_intf with
          | some local_addr => some (ListenerSpec.MulticastV4 mg local_addr)
          | none => none
        else none
      | .ok (.V6 mg) =>
        if mg.ip.is_multicast then
          match P.parseU32 local_intf with
          | some interface_id => some (ListenerSpec.MulticastV6 mg interface_id)
          | none => none
        else none
      | .error _ => none

/-! ## `parse_args` (`src/args.rs`, lines 37–62) -/

/-- `Args`: the parsed CLI arguments. -/
structure Args where
  listener_spec : ListenerSpec
  forward_addrs : List SocketAddr
deriving DecidableEq, Repr

/-- `ParseArgsError`. -/
inductive ParseArgsError where
  | Help
  | MissingArgs
  | ListenerSpec
  | ForwardSpec (e : AddrParseError)
deriving DecidableEq, Repr

/-- The `args.map(|arg| arg.parse()).collect::<Result<Vec<SocketAddr>, _>>()`
step: parse every token as a socket address, short-circuiting at the first
failure and returning that failure's error. -/
def collectAddrs (P : StdParsers) : List String → Except AddrParseError (List SocketAddr)
  | [] => .ok []
  | t :: ts =>
    match P.parseSocketAddr t with
    | .error e => .error e
    | .ok a =>
      match collectAddrs P ts with
      | .error e => .error e
      | .ok as => .ok (a :: as)

/-- `parse_args`: first token is the listener specification (or a help
request), the remaining tokens are forward addresses, which must be
non-empty. -/
def parse_args (P : StdParsers) (args : List String) : Except ParseArgsError Args :=
  match args with
  | [] => .error .MissingArgs
  | arg :: rest =>
    if arg = "--help" ∨ arg = "-h" then .error .Help
    else
      match ListenerSpec.fromStr P arg with
      | none => .error .ListenerSpec
      | some spec =>
        match collectAddrs P rest with
        | .error e => .error (.ForwardSpec e)
        | .ok forward_addrs =>
          if forward_addrs.isEmpty then .error .MissingArgs
          else .ok ⟨spec, forward_addrs⟩

/-! ## Forwarding engine (`src/forwarding.rs`)

Sockets and the network are outside the repository; they enter the
embedding as oracles. A `UdpSocket` value is an opaque handle; binding a
socket, receiving a datagram, and the outcome of an individual send are
oracle results. The engine's observable behaviour is the trace of
successful `send_to` calls (payload slice and destination address). -/

/-- An opaque handle for a bound `std::net::UdpSocket`. -/
structure UdpSocket where
  id : Nat
deriving DecidableEq, Repr

/-- An opaque `std::io::Error` value. -/
structure IoError where
  code : Nat
deriving DecidableEq, Repr

/-- `Senders` (`src/forwarding.rs`): the at-most-two sending sockets,
one per IP family, present only when that family has forward targets. -/
structure Senders where
  sender_v4 : Option UdpSocket
  sender_v6 : Option UdpSocket
deriving DecidableEq, Repr

/-- `Senders::for_addresses`, with the two `UdpSocket::bind` calls (IPv4
wildcard, IPv6 wildcard) modelled by oracle results `bindV4`, `bindV6`.
A family's bind is attempted only when some forward address has that
family; a bind failure propagates (`return Err(e)`). -/
def Senders.for_addresses (bindV4 bindV6 : Except IoError UdpSocket)
    (forward_specs : List SocketAddr) : Except IoError Senders :=
  match (if forward_specs.any (fun addr => addr.is_ipv4) then
           Except.map some bindV4 else .ok none) with
  | .error e => .error e
  | .ok sender_v4 =>
    match (if forward_specs.any (fun addr => addr.is_ipv6) then
             Except.map some bindV6 else .ok none) with
    | .error e => .error e
    | .ok sender_v6 => .ok ⟨sender_v4, sender_v6⟩

/-- The number of live sender sockets a `Senders` value holds. -/
def Senders.socketCount (s : Senders) : Nat :=
  s.sender_v4.toList.length + s.sender_v6.toList.length

/-- Outcome of one `Senders::send_to` call: the `.expect(...)` panic when
the family's sender is absent, an I/O error from the underlying send, or
success with the byte count the OS reports. -/
inductive SendOutcome where
  | panic
  | err (e : IoError)
  | sent (n : Nat)
deriving DecidableEq, Repr

/-- `Senders::send_to`: select the sender matching the destination's IP
family (panicking via `.expect` when it is absent) and perform the send,
whose I/O outcome is the oracle result `res`. -/
def Senders.send_to (s : Senders) (res : Except IoError Nat) (data : List Nat)
    (addr : SocketAddr) : SendOutcome :=
  match addr with
  | .V4 _ =>
    match s.sender_v4 with
    | none => .panic
    | some _ => match res with | .error e => .err e | .ok n => .sent n
  | .V6 _ =>
    match s.sender_v6 with
    | none => .panic
    | some _ => match res with | .error e => .err e | .ok n => .sent n

/-- One observable send: the byte slice handed to `send_to` and the
destination address. -/
abbrev SendEvent := List Nat × SocketAddr

/-- How one pass over the forward-address list ended. -/
inductive FanOutcome where
  | ok
  | panicked
  | failed (e : IoError)
deriving DecidableEq, Repr

/-- The inner `for forward_addr in forward_addrs` loop of `forward` for one
received datagram: send `slice` to each address in list order, recording
the successful sends; stop at the first panic or I/O error (`?`). `sendRes`
gives the I/O outcome of the send to the address at (list) index `j`. -/
def fanOut (s : Senders) (slice : List Nat) (sendRes : Nat → Except IoError Nat) :
    List SocketAddr → Nat → List SendEvent × FanOutcome
  | [], _ => ([], .ok)
  | addr :: rest, j =>
    match s.send_to (sendRes j) slice addr with
    | .panic => ([], .panicked)
    | .err e => ([], .failed e)
    | .sent _ =>
      let tail := fanOut s slice sendRes rest (j + 1)
      ((slice, addr) :: tail.1, tail.2)

/-- `MTU`: the fixed receive buffer size. -/
def MTU : Nat := 1500

/-- How a bounded observation of the (infinite) forward loop ended:
still relaying when the observation bound ran out, terminated by an I/O
error, or stopped by the `send_to` panic. -/
inductive LoopOutcome where
  | running
  | panicked
  | failed (e : IoError)
deriving DecidableEq, Repr

/-- `listener.recv(&mut buffer)` on the 1500-byte buffer: the wire
datagram's first `min(len, 1500)` bytes overwrite the front of the buffer
(the rest keeps its previous content) and that count is returned. -/
def recvIntoBuffer (buf dgram : List Nat) : List Nat × Nat :=
  let n := min dgram.length MTU
  (dgram.take n ++ buf.drop n, n)

/-- The `loop` of `forward`, observed for `fuel` iterations starting at
iteration index `i` with buffer contents `buf`. `recvRes i` is the wire
datagram (payload bytes and origin address) or receive error of iteration
`i`; `sendRes i j` is the I/O outcome of iteration `i`'s send to the
address at index `j`. Returns the trace of successful sends and how the
observation ended. -/
def forwardRun (s : Senders) (forward_addrs : List SocketAddr)
    (recvRes : Nat → Except IoError (List Nat × SocketAddr))
    (sendRes : Nat → Nat → Except IoError Nat) :
    Nat → Nat → List Nat → List SendEvent × LoopOutcome
  | 0, _, _ => ([], .running)
  | fuel + 1, i, buf =>
    match recvRes i with
    | .error e => ([], .failed e)
    | .ok dgram =>
      let rcv := recvIntoBuffer buf dgram.1
      let fan := fanOut s (rcv.1.take rcv.2) (sendRes i) forward_addrs 0
      match fan.2 with
      | .ok =>
        let rest := forwardRun s forward_addrs recvRes sendRes fuel (i + 1) rcv.1
        (fan.1 ++ rest.1, rest.2)
      | .panicked => (fan.1, .panicked)
      | .failed e => (fan.1, .failed e)

/-- `forward` (`src/forwarding.rs`, lines 11–25), observed for `fuel` loop
iterations: materialize the listener from the spec (`try_into`, an oracle
`tryInto` covering the bind/join calls of `src/listener.rs`), build the
senders, then run the receive/fan-out loop on the zeroed 1500-byte buffer.
A startup failure propagates as `Except.error`. -/
def forward (tryInto : ListenerSpec → Except IoError UdpSocket)
    (bindV4 bindV6 : Except IoError UdpSocket)
    (listener_spec : ListenerSpec) (forward_addrs : List SocketAddr)
    (recvRes : Nat → Except IoError (List Nat × SocketAddr))
    (sendRes : Nat → Nat → Except IoError Nat) (fuel : Nat) :
    Except IoError (List SendEvent × LoopOutcome) :=
  match tryInto listener_spec with
  | .error e => .error e
  | .ok _listener =>
    match Senders.for_addresses bindV4 bindV6 forward_addrs with
    | .error e => .error e
    | .ok senders =>
      .ok (forwardRun senders forward_addrs recvRes sendRes fuel 0 (List.replicate MTU 0))

/-! ## Concrete instances used to exercise the definitions -/

/-- A small concrete stand-in for the `std` parsers, recognizing the handful
of literals the repository's own tests use and failing (with the one opaque
`AddrParseError` value `std` produces for socket-address syntax) on
everything else. -/
def stdParsersDemo : StdParsers where
  parseSocketAddr s :=
    if s = "10.1.1.10:4000" then .ok (.V4 ⟨⟨10, 1, 1, 10⟩, 4000⟩)
    else if s = "224.10.10.10:4000" then .ok (.V4 ⟨⟨224, 10, 10, 10⟩, 4000⟩)
    else if s = "[ff0e::1]:4000" then .ok (.V6 ⟨⟨0xff0e, 0, 0, 0, 0, 0, 0, 1⟩, 4000, 0, 0⟩)
    else .error ⟨6⟩
  parseIpv4 s := if s = "192.168.1.10" then some ⟨192, 168, 1, 10⟩ else none
  parseU32 s := if s = "2" then some 2 else none

/-! ## Parser claims -/

/-- Claim C2: for every input string that parses as a bare socket address,
`ListenerSpec::from_str` yields `Unicast` wrapping exactly that address when
its IP is not multicast, and the matching multicast variant with default
interface selection (`local_addr = 0.0.0.0` for `MulticastV4`,
`interface_id = 0` for `MulticastV6`) and the group equal to exactly the
parsed address when it is multicast. -/
theorem fromStr_bare_address (P : StdParsers) (s : String) (addr : SocketAddr)
    (h : P.parseSocketAddr s = .ok addr) :
    (addr.ipIsMulticast = false → ListenerSpec.fromStr P s = some (.Unicast addr)) ∧
    (∀ a4, addr = .V4 a4 → a4.ip.is_multicast = true →
      ListenerSpec.fromStr P s = some (.MulticastV4 a4 Ipv4Addr.UNSPECIFIED)) ∧
    (∀ a6, addr = .V6 a6 → a6.ip.is_multicast = true →
      ListenerSpec.fromStr P s = some (.MulticastV6 a6 0)) := by
  refine ⟨fun hm => ?_, fun a4 ha hm => ?_, fun a6 ha hm => ?_⟩
  · cases addr with
    | V4 a4 =>
      simp only [SocketAddr.ipIsMulticast] at hm
      simp [ListenerSpec.fromStr, h, hm]
    | V6 a6 =>
      simp only [SocketAddr.ipIsMulticast] at hm
      simp [ListenerSpec.fromStr, h, hm]
  · subst ha; simp [ListenerSpec.fromStr, h, hm]
  · subst ha; simp [ListenerSpec.fromStr, h, hm]

/-- Witness for C2 at a concrete multicast input and a concrete unicast input. -/
theorem fromStr_bare_address_demo :
    ListenerSpec.fromStr stdParsersDemo "224.10.10.10:4000" =
      some (.MulticastV4 ⟨⟨224, 10, 10, 10⟩, 4000⟩ Ipv4Addr.UNSPECIFIED) ∧
    ListenerSpec.fromStr stdParsersDemo "10.1.1.10:4000" =
      some (.Unicast (.V4 ⟨⟨10, 1, 1, 10⟩, 4000⟩)) := by
  constructor
  · exact (fromStr_bare_address stdParsersDemo "224.10.10.10:4000"
      (.V4 ⟨⟨224, 10, 10, 10⟩, 4000⟩) rfl).2.1 ⟨⟨224, 10, 10, 10⟩, 4000⟩ rfl (by decide)
  · exact (fromStr_bare_address stdParsersDemo "10.1.1.10:4000"
      (.V4 ⟨⟨10, 1, 1, 10⟩, 4000⟩) rfl).1 (by decide)

/-- Claim C3: for input that is not a bare socket address, `from_str` splits
on the first `/` (failing when none is present); it succeeds exactly when
the group part parses as a multicast socket address and the detail part
parses per the group's family (an IPv4 address for an IPv4 group, a `u32`
for an IPv6 group), producing the multicast variant with exactly the parsed
group and detail; a non-multicast group with details fails rather than
falling back to `Unicast`. -/
theorem fromStr_details (P : StdParsers) (s : String) (e : AddrParseError)
    (hbare : P.parseSocketAddr s = .error e) :
    (splitOnce s (Char.ofNat 47) = none → ListenerSpec.fromStr P s = none) ∧
    (∀ g d, splitOnce s (Char.ofNat 47) = some (g, d) →
      (∀ eg, P.parseSocketAddr g = .error eg → ListenerSpec.fromStr P s = none) ∧
      (∀ mg, P.parseSocketAddr g = .ok (.V4 mg) →
        (mg.ip.is_multicast = false → ListenerSpec.fromStr P s = none) ∧
        (mg.ip.is_multicast = true →
          (P.parseIpv4 d = none → ListenerSpec.fromStr P s = none) ∧
          (∀ la, P.parseIpv4 d = some la →
            ListenerSpec.fromStr P s = some (.MulticastV4 mg la)))) ∧
      (∀ mg, P.parseSocketAddr g = .ok (.V6 mg) →
        (mg.ip.is_multicast = false → ListenerSpec.fromStr P s = none) ∧
        (mg.ip.is_multicast = true →
          (P.parseU32 d = none → ListenerSpec.fromStr P s = none) ∧
          (∀ iid, P.parseU32 d = some iid →
            ListenerSpec.fromStr P s = some (.MulticastV6 mg iid))))) := by
  constructor
  · intro hsplit
    simp [ListenerSpec.fromStr, hbare, hsplit]
  · intro g d hsplit
    refine ⟨fun eg heg => ?_, fun mg hmg => ⟨fun hnm => ?_, fun hm => ⟨fun hd => ?_, fun la hla => ?_⟩⟩,
      fun mg hmg => ⟨fun hnm => ?_, fun hm => ⟨fun hd => ?_, fun iid hiid => ?_⟩⟩⟩ <;>
      simp_all [ListenerSpec.fromStr, hbare, hsplit]

/-- Witness for C3 at a concrete multicast-with-details input. -/
theorem fromStr_details_demo :
    ListenerSpec.fromStr stdParsersDemo "224.10.10.10:4000/192.168.1.10" =
      some (.MulticastV4 ⟨⟨224, 10, 10, 10⟩, 4000⟩ ⟨192, 168, 1, 10⟩) := by
  have h := fromStr_details stdParsersDemo "224.10.10.10:4000/192.168.1.10" ⟨6⟩ rfl
  have h2 := (h.2 "224.10.10.10:4000" "192.168.1.10" rfl).2.1
    ⟨⟨224, 10, 10, 10⟩, 4000⟩ rfl
  exact (h2.2 (by decide)).2 ⟨192, 168, 1, 10⟩ rfl

/-- The multicast-range invariant of `ListenerSpec` values: multicast
variants carry a group whose IP passes the family's multicast test, and
`Unicast` carries a non-multicast IP. -/
def ListenerSpec.multicastWellFormed : ListenerSpec → Prop
  | .Unicast addr => addr.ipIsMulticast = false
  | .MulticastV4 mg _ => mg.ip.is_multicast = true
  | .MulticastV6 mg _ => mg.ip.is_multicast = true

/-- Claim C4: every `ListenerSpec` that `from_str` produces, for any input
string and any behaviour of the underlying `std` parsers, satisfies the
multicast-range invariant. -/
theorem fromStr_multicast_invariant (P : StdParsers) (s : String) (spec : ListenerSpec)
    (h : ListenerSpec.fromStr P s = some spec) :
    spec.multicastWellFormed := by
  unfold ListenerSpec.fromStr at h
  repeat' split at h
  all_goals (first
    | exact Option.noConfusion h
    | (rw [Option.some_inj] at h; subst h;
       simp_all [ListenerSpec.multicastWellFormed, SocketAddr.ipIsMulticast]))

/-- Witness for C4 at a concrete parse result. -/
theorem fromStr_multicast_invariant_demo :
    (ListenerSpec.MulticastV6 ⟨⟨0xff0e, 0, 0, 0, 0, 0, 0, 1⟩, 4000, 0, 0⟩ 0).multicastWellFormed :=
  fromStr_multicast_invariant stdParsersDemo "[ff0e::1]:4000" _ rfl

/-! ## Argument-parsing claims -/

/-- When every token of `pre` parses and `tok` fails with `e`, collecting
`pre ++ tok :: rest` short-circuits at `tok` and returns `e`. -/
theorem collectAddrs_first_error (P : StdParsers) (pre : List String) (tok : String)
    (e : AddrParseError) (rest : List String)
    (hpre : ∀ t ∈ pre, ∃ a, P.parseSocketAddr t = .ok a)
    (htok : P.parseSocketAddr tok = .error e) :
    collectAddrs P (pre ++ tok :: rest) = .error e := by
  induction pre with
  | nil => simp [collectAddrs, htok]
  | cons t ts ih =>
    obtain ⟨a, ha⟩ := hpre t (by simp)
    have ih2 := ih fun u hu => hpre u (by simp [hu])
    simp [collectAddrs, ha, ih2]

/-- Claim C10: `"--help"`/`"-h"` is recognized as a help request exactly
when it is the first token; a non-help first token never yields `Help`, and
a help token in a later position is parsed as a destination address, whose
failure surfaces as a `ForwardSpec` error. -/
theorem parse_args_help_first_only (P : StdParsers) :
    (∀ rest, parse_args P ("--help" :: rest) = .error .Help) ∧
    (∀ rest, parse_args P ("-h" :: rest) = .error .Help) ∧
    (∀ arg rest, ¬(arg = "--help" ∨ arg = "-h") →
      parse_args P (arg :: rest) ≠ .error .Help) ∧
    (∀ first spec pre tok e rest,
      ¬(first = "--help" ∨ first = "-h") →
      ListenerSpec.fromStr P first = some spec →
      (tok = "--help" ∨ tok = "-h") →
      (∀ t ∈ pre, ∃ a, P.parseSocketAddr t = .ok a) →
      P.parseSocketAddr tok = .error e →
      parse_args P (first :: (pre ++ tok :: rest)) = .error (.ForwardSpec e)) := by
  refine ⟨fun rest => rfl, fun rest => rfl, ?_, ?_⟩
  · intro arg rest h
    simp only [parse_args, if_neg h]
    cases hb : ListenerSpec.fromStr P arg with
    | none => simp
    | some spec =>
      cases hc : collectAddrs P rest with
      | error e => simp
      | ok fs =>
        by_cases hfs : fs.isEmpty <;> simp [hfs]
  · intro first spec pre tok e rest hfirst hspec _htok hpre he
    have hc := collectAddrs_first_error P pre tok e rest hpre he
    simp [parse_args, if_neg hfirst, hspec, hc]

/-- Witness for C10: help as the first token, and `"-h"` in a destination
position producing a `ForwardSpec` error. -/
theorem parse_args_help_first_only_demo :
    parse_args stdParsersDemo ["-h", "10.1.1.10:4000"] = .error .Help ∧
    parse_args stdParsersDemo ["10.1.1.10:4000", "-h"] = .error (.ForwardSpec ⟨6⟩) := by
  have h := parse_args_help_first_only stdParsersDemo
  refine ⟨h.2.1 ["10.1.1.10:4000"], ?_⟩
  have h4 := h.2.2.2 "10.1.1.10:4000" (ListenerSpec.Unicast (.V4 ⟨⟨10, 1, 1, 10⟩, 4000⟩))
    [] "-h" ⟨6⟩ [] (by decide) rfl (Or.inr rfl) (by simp) rfl
  simpa using h4

/-- Counterexample for C8 as stated: two argument lists whose (unique)
unparsable destination tokens differ — `"badA"` in one run, `"badB"` in the
other — produce the very same `ForwardSpec` error value, the one opaque
diagnostic `std`'s socket-address parser returns; the resulting error
therefore cannot report which token failed. -/
theorem parse_args_token_not_reported_cex :
    parse_args stdParsersDemo ["10.1.1.10:4000", "badA"] = .error (.ForwardSpec ⟨6⟩) ∧
    parse_args stdParsersDemo ["10.1.1.10:4000", "badB"] = .error (.ForwardSpec ⟨6⟩) ∧
    ("badA" : String) ≠ "badB" :=
  ⟨rfl, rfl, by decide⟩

/-- Claim C8 (amended): destination-list parsing parses each token
independently as a plain socket address (multicast destinations permitted —
no multicast test is applied), fails on the first unparsable token, and the
resulting error carries the underlying address-parse diagnostic of that
token; it does not identify which token failed. -/
theorem parse_args_destinations (P : StdParsers) :
    (∀ tokens addrs, collectAddrs P tokens = .ok addrs →
      List.Forall₂ (fun t a => P.parseSocketAddr t = .ok a) tokens addrs) ∧
    (∀ tokens, (∀ t ∈ tokens, ∃ a, P.parseSocketAddr t = .ok a) →
      ∃ addrs, collectAddrs P tokens = .ok addrs) ∧
    (∀ first spec pre tok e rest,
      ¬(first = "--help" ∨ first = "-h") →
      ListenerSpec.fromStr P first = some spec →
      (∀ t ∈ pre, ∃ a, P.parseSocketAddr t = .ok a) →
      P.parseSocketAddr tok = .error e →
      parse_args P (first :: (pre ++ tok :: rest)) = .error (.ForwardSpec e)) := by
  refine ⟨?_, ?_, ?_⟩
  · intro tokens
    induction tokens with
    | nil => intro addrs h; cases h; · exact List.Forall₂.nil
    | cons t ts ih =>
      intro addrs h
      cases hp : P.parseSocketAddr t with
      | error e => rw [collectAddrs, hp] at h; cases h
      | ok a =>
        rw [collectAddrs, hp] at h
        cases hc : collectAddrs P ts with
        | error e => rw [hc] at h; cases h
        | ok as =>
          rw [hc] at h
          cases h
          exact List.Forall₂.cons hp (ih as hc)
  · intro tokens h
    induction tokens with
    | nil => exact ⟨[], rfl⟩
    | cons t ts ih =>
      obtain ⟨a, ha⟩ := h t (by simp)
      obtain ⟨as, has⟩ := ih fun u hu => h u (by simp [hu])
      exact ⟨a :: as, by simp [collectAddrs, ha, has]⟩
  · intro first spec pre tok e rest hfirst hspec hpre he
    have hc := collectAddrs_first_error P pre tok e rest hpre he
    simp [parse_args, if_neg hfirst, hspec, hc]

/-- Witness for C8 (amended): a concrete run where the second of three
destination tokens is the first unparsable one. -/
theorem parse_args_destinations_demo :
    parse_args stdParsersDemo ["10.1.1.10:4000", "224.10.10.10:4000", "badA", "10.1.1.10:4000"] =
      .error (.ForwardSpec ⟨6⟩) := by
  have h := (parse_args_destinations stdParsersDemo).2.2 "10.1.1.10:4000"
    (ListenerSpec.Unicast (.V4 ⟨⟨10, 1, 1, 10⟩, 4000⟩)) ["224.10.10.10:4000"] "badA" ⟨6⟩
    ["10.1.1.10:4000"] (by decide) rfl
    (by intro t ht; simp at ht; subst ht; exact ⟨.V4 ⟨⟨224, 10, 10, 10⟩, 4000⟩, rfl⟩) rfl
  simpa using h

/-! ## Sender-construction claims -/

/-- Characterization of a successful `Senders::for_addresses`: each family's
sender is present exactly when the destination list contains an address of
that family. -/
theorem for_addresses_isSome (bindV4 bindV6 : Except IoError UdpSocket)
    (specs : List SocketAddr) (snd : Senders)
    (h : Senders.for_addresses bindV4 bindV6 specs = .ok snd) :
    snd.sender_v4.isSome = specs.any (fun a => a.is_ipv4) ∧
    snd.sender_v6.isSome = specs.any (fun a => a.is_ipv6) := by
  unfold Senders.for_addresses at h
  cases bindV4 <;> cases bindV6 <;>
    by_cases h4 : (specs.any fun a => a.is_ipv4) = true <;>
    by_cases h6 : (specs.any fun a => a.is_ipv6) = true <;>
    simp_all [Except.map] <;> (subst h; simp_all [List.any_eq_true, List.any_eq_false])

/-- The family sender needed for an address of the destination list is
present, as a `Prop` on one address. -/
def familyPresent (snd : Senders) : SocketAddr → Prop
  | .V4 _ => snd.sender_v4.isSome = true
  | .V6 _ => snd.sender_v6.isSome = true

/-- Every address of the list `for_addresses` succeeded on has its family's
sender present. -/
theorem for_addresses_family_present {bindV4 bindV6 : Except IoError UdpSocket}
    {specs : List SocketAddr} {snd : Senders}
    (h : Senders.for_addresses bindV4 bindV6 specs = .ok snd)
    {addr : SocketAddr} (ha : addr ∈ specs) : familyPresent snd addr := by
  obtain ⟨h4, h6⟩ := for_addresses_isSome bindV4 bindV6 specs snd h
  cases addr with
  | V4 a =>
    show snd.sender_v4.isSome = true
    rw [h4]
    exact List.any_eq_true.mpr ⟨_, ha, rfl⟩
  | V6 a =>
    show snd.sender_v6.isSome = true
    rw [h6]
    exact List.any_eq_true.mpr ⟨_, ha, rfl⟩

/-- Claim C5: sender construction creates an IPv4 sender socket iff some
destination is IPv4 and an IPv6 sender socket iff some destination is IPv6;
a family with no destinations gets no socket, and at most two sender
sockets exist. -/
theorem for_addresses_per_family (bindV4 bindV6 : Except IoError UdpSocket)
    (specs : List SocketAddr) (snd : Senders)
    (h : Senders.for_addresses bindV4 bindV6 specs = .ok snd) :
    (snd.sender_v4.isSome = true ↔ ∃ a ∈ specs, a.is_ipv4 = true) ∧
    (snd.sender_v6.isSome = true ↔ ∃ a ∈ specs, a.is_ipv6 = true) ∧
    snd.socketCount ≤ 2 := by
  obtain ⟨h4, h6⟩ := for_addresses_isSome bindV4 bindV6 specs snd h
  refine ⟨by rw [h4]; exact List.any_eq_true, by rw [h6]; exact List.any_eq_true, ?_⟩
  unfold Senders.socketCount
  cases snd.sender_v4 <;> cases snd.sender_v6 <;> simp

/-- Witness for C5: one IPv4 and one IPv6 destination yield both senders. -/
theorem for_addresses_per_family_demo :
    (Senders.mk (some ⟨1⟩) (some ⟨2⟩)).sender_v4.isSome = true ∧
    (Senders.mk (some ⟨1⟩) (some ⟨2⟩)).socketCount ≤ 2 := by
  have h := for_addresses_per_family (.ok ⟨1⟩) (.ok ⟨2⟩)
    [.V4 ⟨⟨127, 0, 0, 1⟩, 4001⟩, .V6 ⟨⟨0, 0, 0, 0, 0, 0, 0, 1⟩, 4002, 0, 0⟩]
    (Senders.mk (some ⟨1⟩) (some ⟨2⟩)) rfl
  exact ⟨h.1.mpr ⟨.V4 ⟨⟨127, 0, 0, 1⟩, 4001⟩, by simp, rfl⟩, h.2.2⟩

/-- Claim C6: under the precondition that the `Senders` value was
successfully constructed from the destination list the forward loop
iterates over, the `.expect` branch of `send_to` is unreachable: no send to
an address of that list panics, whatever the I/O outcome and payload. -/
theorem send_to_expect_unreachable (bindV4 bindV6 : Except IoError UdpSocket)
    (forward_addrs : List SocketAddr) (snd : Senders)
    (h : Senders.for_addresses bindV4 bindV6 forward_addrs = .ok snd)
    (addr : SocketAddr) (ha : addr ∈ forward_addrs)
    (res : Except IoError Nat) (data : List Nat) :
    Senders.send_to snd res data addr ≠ .panic := by
  have hp := for_addresses_family_present h ha
  cases addr with
  | V4 a =>
    have hs : snd.sender_v4.isSome = true := hp
    obtain ⟨sock, hsock⟩ := Option.isSome_iff_exists.mp hs
    cases res <;> simp [Senders.send_to, hsock]
  | V6 a =>
    have hs : snd.sender_v6.isSome = true := hp
    obtain ⟨sock, hsock⟩ := Option.isSome_iff_exists.mp hs
    cases res <;> simp [Senders.send_to, hsock]

/-- Witness for C6 at a concrete sender set and destination. -/
theorem send_to_expect_unreachable_demo :
    Senders.send_to (Senders.mk (some ⟨1⟩) none) (.ok 4) [1, 2, 3]
      (.V4 ⟨⟨127, 0, 0, 1⟩, 4001⟩) ≠ .panic :=
  send_to_expect_unreachable (.ok ⟨1⟩) (.error ⟨9⟩) [.V4 ⟨⟨127, 0, 0, 1⟩, 4001⟩]
    (Senders.mk (some ⟨1⟩) none) rfl (.V4 ⟨⟨127, 0, 0, 1⟩, 4001⟩) (by simp) (.ok 4) [1, 2, 3]

/-! ## Forward-loop lemmas -/

/-- Taking no more than the first list's length from an append stays in the
first list. -/
theorem take_append_left (l r : List Nat) (n : Nat) (h : n ≤ l.length) :
    (l ++ r).take n = l.take n := by
  rw [List.take_append_eq_append_take, Nat.sub_eq_zero_of_le h, List.take_zero, List.append_nil]

/-- Truncating a list at its own length capped by `k` is truncating at `k`. -/
theorem take_min_len (dgram : List Nat) (k : Nat) :
    dgram.take (min dgram.length k) = dgram.take k := by
  rw [Nat.min_comm, ← List.take_take, List.take_length]

/-- The slice `&buffer[..num_bytes]` the loop passes to `send_to` is exactly
the wire datagram truncated to the MTU, independent of the buffer's
previous contents. -/
theorem slice_take (buf dgram : List Nat) :
    (dgram.take (min dgram.length MTU) ++ buf.drop (min dgram.length MTU)).take
        (min dgram.length MTU) =
      dgram.take MTU := by
  rw [take_append_left _ _ _ (by rw [List.length_take]; omega),
    List.take_take, Nat.min_self, take_min_len]

/-- Variant of `slice_take` with the datagram part already truncated at the
MTU (the form rewriting can leave the buffer in). -/
theorem slice_take2 (buf dgram : List Nat) :
    (dgram.take MTU ++ buf.drop (min dgram.length MTU)).take (min dgram.length MTU) =
      dgram.take MTU := by
  have h := slice_take buf dgram
  rwa [take_min_len] at h

/-- `send_to` with the family sender present and a successful underlying
send reports the sent byte count. -/
theorem send_to_sent (s : Senders) (addr : SocketAddr) (hpres : familyPresent s addr)
    (slice : List Nat) (n : Nat) :
    s.send_to (.ok n) slice addr = .sent n := by
  cases addr with
  | V4 a =>
    obtain ⟨sock, hsock⟩ := Option.isSome_iff_exists.mp hpres
    simp [Senders.send_to, hsock]
  | V6 a =>
    obtain ⟨sock, hsock⟩ := Option.isSome_iff_exists.mp hpres
    simp [Senders.send_to, hsock]

/-- `send_to` with the family sender present propagates an underlying send
error. -/
theorem send_to_err (s : Senders) (addr : SocketAddr) (hpres : familyPresent s addr)
    (slice : List Nat) (e : IoError) :
    s.send_to (.error e) slice addr = .err e := by
  cases addr with
  | V4 a =>
    obtain ⟨sock, hsock⟩ := Option.isSome_iff_exists.mp hpres
    simp [Senders.send_to, hsock]
  | V6 a =>
    obtain ⟨sock, hsock⟩ := Option.isSome_iff_exists.mp hpres
    simp [Senders.send_to, hsock]

/-- When every send succeeds and every family sender needed is present, the
fan-out sends the slice to every destination in list order. -/
theorem fanOut_all_ok (s : Senders) (slice : List Nat) (sendRes : Nat → Except IoError Nat) :
    ∀ (addrs : List SocketAddr) (j : Nat),
      (∀ a ∈ addrs, familyPresent s a) →
      (∀ k, k < addrs.length → ∃ n, sendRes (j + k) = .ok n) →
      fanOut s slice sendRes addrs j = (addrs.map (fun a => (slice, a)), .ok)
  | [], j, _, _ => by simp [fanOut]
  | addr :: rest, j, hfam, hok => by
    obtain ⟨n, hn⟩ := hok 0 (by simp)
    rw [Nat.add_zero] at hn
    have ih := fanOut_all_ok s slice sendRes rest (j + 1)
      (fun a ha => hfam a (by simp [ha]))
      (fun k hk => by
        have hidx : j + 1 + k = j + (k + 1) := by omega
        rw [hidx]
        exact hok (k + 1) (by simpa using Nat.succ_lt_succ hk))
    simp [fanOut, hn, send_to_sent s addr (hfam addr (by simp)) slice n, ih]

/-- When the sends to the first `jf` destinations succeed and the send to
destination `jf` fails with `e`, the fan-out records exactly the first `jf`
destinations and stops with `e`. -/
theorem fanOut_first_error (s : Senders) (slice : List Nat) (sendRes : Nat → Except IoError Nat) :
    ∀ (addrs : List SocketAddr) (j jf : Nat) (e : IoError),
      (∀ a ∈ addrs, familyPresent s a) →
      jf < addrs.length →
      (∀ k, k < jf → ∃ n, sendRes (j + k) = .ok n) →
      sendRes (j + jf) = .error e →
      fanOut s slice sendRes addrs j = ((addrs.take jf).map (fun a => (slice, a)), .failed e)
  | [], _, jf, e, _, h, _, _ => absurd h (by simp)
  | addr :: rest, j, 0, e, hfam, _, _, herr => by
    rw [Nat.add_zero] at herr
    simp [fanOut, herr, send_to_err s addr (hfam addr (by simp)) slice e]
  | addr :: rest, j, jf + 1, e, hfam, hjf, hok, herr => by
    obtain ⟨n, hn⟩ := hok 0 (by omega)
    rw [Nat.add_zero] at hn
    have ih := fanOut_first_error s slice sendRes rest (j + 1) jf e
      (fun a ha => hfam a (by simp [ha])) (by simpa using hjf)
      (fun k hk => by
        have hidx : j + 1 + k = j + (k + 1) := by omega
        rw [hidx]
        exact hok (k + 1) (by omega))
      (by
        have hidx : j + 1 + jf = j + (jf + 1) := by omega
        rw [hidx]
        exact herr)
    simp [fanOut, hn, send_to_sent s addr (hfam addr (by simp)) slice n, ih]

/-- Observing the loop for `fuel` iterations from iteration `i`, with every
receive and send succeeding, produces one full in-order fan-out per
datagram, each carrying the datagram truncated to the MTU. -/
theorem forwardRun_all_ok (s : Senders) (addrs : List SocketAddr)
    (recvRes : Nat → Except IoError (List Nat × SocketAddr))
    (sendRes : Nat → Nat → Except IoError Nat) (D : Nat → List Nat)
    (hfam : ∀ a ∈ addrs, familyPresent s a) :
    ∀ (fuel i : Nat) (buf : List Nat),
      (∀ k, k < fuel → ∃ o, recvRes (i + k) = .ok (D (i + k), o)) →
      (∀ k j, k < fuel → j < addrs.length → ∃ n, sendRes (i + k) j = .ok n) →
      forwardRun s addrs recvRes sendRes fuel i buf =
        ((List.range' i fuel).flatMap fun t => addrs.map fun a => ((D t).take MTU, a), .running)
  | 0, i, buf, _, _ => by simp [forwardRun]
  | fuel + 1, i, buf, hrecv, hsend => by
    obtain ⟨o, ho⟩ := hrecv 0 (by omega)
    rw [Nat.add_zero] at ho
    have hfan := fanOut_all_ok s ((D i).take MTU) (sendRes i) addrs 0 hfam
      (fun j hj => by
        have := hsend 0 j (by omega) hj
        rw [Nat.add_zero] at this
        simpa using this)
    have ih := forwardRun_all_ok s addrs recvRes sendRes D hfam fuel (i + 1)
      ((D i).take MTU ++ buf.drop (min (D i).length MTU))
      (fun k hk => by
        have hidx : i + 1 + k = i + (k + 1) := by omega
        rw [hidx]
        exact hrecv (k + 1) (by omega))
      (fun k j hk hj => by
        have hidx : i + 1 + k = i + (k + 1) := by omega
        rw [hidx]
        exact hsend (k + 1) j (by omega) hj)
    simp [forwardRun, ho, recvIntoBuffer, slice_take, slice_take2, take_min_len, hfan, ih, List.range'_succ]

/-- Observing the loop past `t` all-successful iterations up to a failing
receive at iteration `t` yields the `t` full fan-outs and terminates with
the receive error. -/
theorem forwardRun_recv_error (s : Senders) (addrs : List SocketAddr)
    (recvRes : Nat → Except IoError (List Nat × SocketAddr))
    (sendRes : Nat → Nat → Except IoError Nat) (D : Nat → List Nat)
    (hfam : ∀ a ∈ addrs, familyPresent s a) :
    ∀ (t fuel i : Nat) (buf : List Nat) (e : IoError),
      t < fuel →
      (∀ k, k < t → ∃ o, recvRes (i + k) = .ok (D (i + k), o)) →
      (∀ k j, k < t → j < addrs.length → ∃ n, sendRes (i + k) j = .ok n) →
      recvRes (i + t) = .error e →
      forwardRun s addrs recvRes sendRes fuel i buf =
        ((List.range' i t).flatMap fun u => addrs.map fun a => ((D u).take MTU, a), .failed e)
  | t, 0, _, _, _, ht, _, _, _ => absurd ht (by omega)
  | 0, fuel + 1, i, buf, e, _, _, _, herr => by
    rw [Nat.add_zero] at herr
    simp [forwardRun, herr]
  | t + 1, fuel + 1, i, buf, e, ht, hrecv, hsend, herr => by
    obtain ⟨o, ho⟩ := hrecv 0 (by omega)
    rw [Nat.add_zero] at ho
    have hfan := fanOut_all_ok s ((D i).take MTU) (sendRes i) addrs 0 hfam
      (fun j hj => by
        have := hsend 0 j (by omega) hj
        rw [Nat.add_zero] at this
        simpa using this)
    have ih := forwardRun_recv_error s addrs recvRes sendRes D hfam t fuel (i + 1)
      ((D i).take MTU ++ buf.drop (min (D i).length MTU)) e
      (by omega)
      (fun k hk => by
        have hidx : i + 1 + k = i + (k + 1) := by omega
        rw [hidx]
        exact hrecv (k + 1) (by omega))
      (fun k j hk hj => by
        have hidx : i + 1 + k = i + (k + 1) := by omega
        rw [hidx]
        exact hsend (k + 1) j (by omega) hj)
      (by
        have hidx : i + 1 + t = i + (t + 1) := by omega
        rw [hidx]
        exact herr)
    simp [forwardRun, ho, recvIntoBuffer, slice_take, slice_take2, take_min_len, hfan, ih, List.range'_succ]

/-- Observing the loop past `t` all-successful iterations up to iteration
`t` whose send to destination `jf` fails yields the `t` full fan-outs plus
the partial fan-out to the first `jf` destinations, and terminates with the
send error. -/
theorem forwardRun_send_error (s : Senders) (addrs : List SocketAddr)
    (recvRes : Nat → Except IoError (List Nat × SocketAddr))
    (sendRes : Nat → Nat → Except IoError Nat) (D : Nat → List Nat)
    (hfam : ∀ a ∈ addrs, familyPresent s a) :
    ∀ (t fuel i : Nat) (buf : List Nat) (jf : Nat) (e : IoError),
      t < fuel → jf < addrs.length →
      (∀ k, k ≤ t → ∃ o, recvRes (i + k) = .ok (D (i + k), o)) →
      (∀ k j, k < t → j < addrs.length → ∃ n, sendRes (i + k) j = .ok n) →
      (∀ j, j < jf → ∃ n, sendRes (i + t) j = .ok n) →
      sendRes (i + t) jf = .error e →
      forwardRun s addrs recvRes sendRes fuel i buf =
        ((List.range' i t).flatMap (fun u => addrs.map fun a => ((D u).take MTU, a)) ++
          (addrs.take jf).map (fun a => ((D (i + t)).take MTU, a)), .failed e)
  | t, 0, _, _, _, _, ht, _, _, _, _, _ => absurd ht (by omega)
  | 0, fuel + 1, i, buf, jf, e, _, hjf, hrecv, _, hsendT, herr => by
    obtain ⟨o, ho⟩ := hrecv 0 (by omega)
    rw [Nat.add_zero] at ho
    rw [Nat.add_zero] at herr
    have hfan := fanOut_first_error s ((D i).take MTU) (sendRes i) addrs 0 jf e hfam hjf
      (fun k hk => by
        have := hsendT k hk
        rw [Nat.add_zero] at this
        simpa using this)
      (by simpa using herr)
    simp [forwardRun, ho, recvIntoBuffer, slice_take, slice_take2, take_min_len, hfan]
  | t + 1, fuel + 1, i, buf, jf, e, ht, hjf, hrecv, hsend, hsendT, herr => by
    obtain ⟨o, ho⟩ := hrecv 0 (by omega)
    rw [Nat.add_zero] at ho
    have hfan := fanOut_all_ok s ((D i).take MTU) (sendRes i) addrs 0 hfam
      (fun j hj => by
        have := hsend 0 j (by omega) hj
        rw [Nat.add_zero] at this
        simpa using this)
    have hstep : i + 1 + t = i + (t + 1) := by omega
    have ih := forwardRun_send_error s addrs recvRes sendRes D hfam t fuel (i + 1)
      ((D i).take MTU ++ buf.drop (min (D i).length MTU)) jf e
      (by omega) hjf
      (fun k hk => by
        have hidx : i + 1 + k = i + (k + 1) := by omega
        rw [hidx]
        exact hrecv (k + 1) (by omega))
      (fun k j hk hj => by
        have hidx : i + 1 + k = i + (k + 1) := by omega
        rw [hidx]
        exact hsend (k + 1) j (by omega) hj)
      (fun j hj => by
        rw [hstep]
        exact hsendT j hj)
      (by
        rw [hstep]
        exact herr)
    rw [hstep] at ih
    simp [forwardRun, ho, recvIntoBuffer, slice_take, slice_take2, take_min_len, hfan, ih, List.range'_succ]

/-- With no destinations, fan-out is empty and the loop just keeps
receiving and discarding datagrams. -/
theorem forwardRun_nil_addrs (s : Senders)
    (recvRes : Nat → Except IoError (List Nat × SocketAddr))
    (sendRes : Nat → Nat → Except IoError Nat) :
    ∀ (fuel i : Nat) (buf : List Nat),
      (∀ k, k < fuel → ∃ d, recvRes (i + k) = .ok d) →
      forwardRun s [] recvRes sendRes fuel i buf = ([], .running)
  | 0, i, buf, _ => by simp [forwardRun]
  | fuel + 1, i, buf, hrecv => by
    obtain ⟨d, hd⟩ := hrecv 0 (by omega)
    rw [Nat.add_zero] at hd
    have ih := forwardRun_nil_addrs s recvRes sendRes fuel (i + 1)
      ((d.1).take MTU ++ buf.drop (min d.1.length MTU))
      (fun k hk => by
        have hidx : i + 1 + k = i + (k + 1) := by omega
        rw [hidx]
        exact hrecv (k + 1) (by omega))
    simp [forwardRun, hd, recvIntoBuffer, fanOut, take_min_len, ih]

/-! ## Forward-loop claims -/

/-- Claim C1: for every datagram received in the forward loop — `n` being
the byte count the blocking receive into the fixed 1500-byte buffer
returns, i.e. the wire datagram truncated to the MTU — the engine sends
exactly those first `n` received bytes, unmodified, to every address in the
destination list, in list order, before receiving the next datagram; the
origin addresses (the `O i` below) never influence the result. -/
theorem forward_fan_out (tryInto : ListenerSpec → Except IoError UdpSocket)
    (bindV4 bindV6 : Except IoError UdpSocket) (spec : ListenerSpec)
    (addrs : List SocketAddr)
    (recvRes : Nat → Except IoError (List Nat × SocketAddr))
    (sendRes : Nat → Nat → Except IoError Nat) (fuel : Nat)
    (D : Nat → List Nat) (lsock : UdpSocket) (snd : Senders)
    (hL : tryInto spec = .ok lsock)
    (hS : Senders.for_addresses bindV4 bindV6 addrs = .ok snd)
    (hrecv : ∀ i, i < fuel → ∃ origin, recvRes i = .ok (D i, origin))
    (hsend : ∀ i j, i < fuel → j < addrs.length → ∃ n, sendRes i j = .ok n) :
    forward tryInto bindV4 bindV6 spec addrs recvRes sendRes fuel =
      .ok ((List.range fuel).flatMap fun t => addrs.map fun a => ((D t).take MTU, a),
        .running) := by
  have hfam : ∀ a ∈ addrs, familyPresent snd a :=
    fun a ha => for_addresses_family_present hS ha
  have hrun := forwardRun_all_ok snd addrs recvRes sendRes D hfam fuel 0 (List.replicate MTU 0)
    (fun k hk => by simpa using hrecv k hk)
    (fun k j hk hj => by simpa using hsend k j hk hj)
  simp [forward, hL, hS, hrun, List.range_eq_range']

/-- Claim C7: in the forward loop, an I/O error on the receive call or on
any individual send terminates the loop immediately with that error; no
error is retried or swallowed, and a send failure at destination index `jf`
leaves the partial fan-out in place — the destinations before `jf` received
that packet, `jf` and the later ones did not. -/
theorem forward_io_error_fatal (tryInto : ListenerSpec → Except IoError UdpSocket)
    (bindV4 bindV6 : Except IoError UdpSocket) (spec : ListenerSpec)
    (addrs : List SocketAddr)
    (recvRes : Nat → Except IoError (List Nat × SocketAddr))
    (sendRes : Nat → Nat → Except IoError Nat) (fuel : Nat)
    (D : Nat → List Nat) (lsock : UdpSocket) (snd : Senders)
    (hL : tryInto spec = .ok lsock)
    (hS : Senders.for_addresses bindV4 bindV6 addrs = .ok snd)
    (t : Nat) (ht : t < fuel)
    (hrecvPre : ∀ k, k < t → ∃ o, recvRes k = .ok (D k, o))
    (hsendPre : ∀ k j, k < t → j < addrs.length → ∃ n, sendRes k j = .ok n) :
    (∀ e, recvRes t = .error e →
      forward tryInto bindV4 bindV6 spec addrs recvRes sendRes fuel =
        .ok ((List.range t).flatMap fun u => addrs.map fun a => ((D u).take MTU, a),
          .failed e)) ∧
    (∀ o jf e, jf < addrs.length →
      recvRes t = .ok (D t, o) →
      (∀ j, j < jf → ∃ n, sendRes t j = .ok n) →
      sendRes t jf = .error e →
      forward tryInto bindV4 bindV6 spec addrs recvRes sendRes fuel =
        .ok ((List.range t).flatMap (fun u => addrs.map fun a => ((D u).take MTU, a)) ++
          (addrs.take jf).map (fun a => ((D t).take MTU, a)), .failed e)) := by
  have hfam : ∀ a ∈ addrs, familyPresent snd a :=
    fun a ha => for_addresses_family_present hS ha
  constructor
  · intro e herr
    have hrun := forwardRun_recv_error snd addrs recvRes sendRes D hfam t fuel 0
      (List.replicate MTU 0) e ht
      (fun k hk => by simpa using hrecvPre k hk)
      (fun k j hk hj => by simpa using hsendPre k j hk hj)
      (by simpa using herr)
    simp [forward, hL, hS, hrun, List.range_eq_range']
  · intro o jf e hjf hrecvT hsendOkT herrT
    have hrun := forwardRun_send_error snd addrs recvRes sendRes D hfam t fuel 0
      (List.replicate MTU 0) jf e ht hjf
      (fun k hk => by
        rcases Nat.lt_or_ge k t with hk2 | hk2
        · simpa using hrecvPre k hk2
        · have hkt : k = t := by omega
          subst hkt
          exact ⟨o, by simpa using hrecvT⟩)
      (fun k j hk hj => by simpa using hsendPre k j hk hj)
      (fun j hj => by simpa using hsendOkT j hj)
      (by simpa using herrT)
    simp only [Nat.zero_add] at hrun
    simp [forward, hL, hS, hrun, List.range_eq_range']

/-- Claim C9: with an empty destination list, `forward` does not fail at
sender construction — whatever the bind oracles would do, no bind is
attempted and both family senders are absent — and the receive loop simply
discards every datagram, performing zero sends. -/
theorem forward_empty_destinations (tryInto : ListenerSpec → Except IoError UdpSocket)
    (bindV4 bindV6 : Except IoError UdpSocket) (spec : ListenerSpec)
    (recvRes : Nat → Except IoError (List Nat × SocketAddr))
    (sendRes : Nat → Nat → Except IoError Nat) (fuel : Nat) (lsock : UdpSocket)
    (hL : tryInto spec = .ok lsock)
    (hrecv : ∀ i, i < fuel → ∃ d, recvRes i = .ok d) :
    Senders.for_addresses bindV4 bindV6 [] = .ok ⟨none, none⟩ ∧
    forward tryInto bindV4 bindV6 spec [] recvRes sendRes fuel = .ok ([], .running) := by
  have hS : Senders.for_addresses bindV4 bindV6 [] = .ok ⟨none, none⟩ := rfl
  have hrun := forwardRun_nil_addrs (⟨none, none⟩ : Senders) recvRes sendRes fuel 0
    (List.replicate MTU 0) (fun k hk => by simpa using hrecv k hk)
  exact ⟨hS, by simp [forward, hL, hS, hrun]⟩

/-! ## Concrete oracles and witnesses for the loop claims -/

/-- Listener materialization oracle that always yields socket `0`. -/
def tryIntoDemo : ListenerSpec → Except IoError UdpSocket := fun _ => .ok ⟨0⟩

/-- A concrete IPv4 destination. -/
def addrDemoV4 : SocketAddr := .V4 ⟨⟨127, 0, 0, 1⟩, 4001⟩

/-- A concrete IPv6 destination. -/
def addrDemoV6 : SocketAddr := .V6 ⟨⟨0, 0, 0, 0, 0, 0, 0, 1⟩, 4002, 0, 0⟩

/-- A concrete six-byte wire datagram. -/
def dgramDemo : List Nat := [112, 97, 99, 107, 101, 116]

/-- Receive oracle: every iteration receives `dgramDemo` from `addrDemoV4`. -/
def recvDemo : Nat → Except IoError (List Nat × SocketAddr) := fun _ => .ok (dgramDemo, addrDemoV4)

/-- Send oracle where every send succeeds. -/
def sendAllOk : Nat → Nat → Except IoError Nat := fun _ _ => .ok 6

/-- Send oracle failing exactly at iteration 1, destination index 1. -/
def sendFailDemo : Nat → Nat → Except IoError Nat :=
  fun i j => if i = 1 ∧ j = 1 then .error ⟨5⟩ else .ok 6

/-- Witness for C1: two iterations over two destinations relay the datagram
to both, in order, twice. -/
theorem forward_fan_out_demo :
    forward tryIntoDemo (.ok ⟨1⟩) (.ok ⟨2⟩) (.Unicast addrDemoV4) [addrDemoV4, addrDemoV6]
      recvDemo sendAllOk 2 =
      .ok ([(dgramDemo, addrDemoV4), (dgramDemo, addrDemoV6),
            (dgramDemo, addrDemoV4), (dgramDemo, addrDemoV6)], .running) := by
  have h := forward_fan_out tryIntoDemo (.ok ⟨1⟩) (.ok ⟨2⟩) (.Unicast addrDemoV4)
    [addrDemoV4, addrDemoV6] recvDemo sendAllOk 2 (fun _ => dgramDemo) ⟨0⟩
    ⟨some ⟨1⟩, some ⟨2⟩⟩ rfl rfl
    (fun _ _ => ⟨addrDemoV4, rfl⟩) (fun _ _ _ _ => ⟨6, rfl⟩)
  rw [h]
  rfl

/-- Witness for C7: the send to the second destination of the second packet
fails; the first packet's full fan-out and the second packet's partial
fan-out remain, and the loop stops with the send error. -/
theorem forward_io_error_fatal_demo :
    forward tryIntoDemo (.ok ⟨1⟩) (.ok ⟨2⟩) (.Unicast addrDemoV4) [addrDemoV4, addrDemoV6]
      recvDemo sendFailDemo 3 =
      .ok ([(dgramDemo, addrDemoV4), (dgramDemo, addrDemoV6), (dgramDemo, addrDemoV4)],
        .failed ⟨5⟩) := by
  have h := (forward_io_error_fatal tryIntoDemo (.ok ⟨1⟩) (.ok ⟨2⟩) (.Unicast addrDemoV4)
      [addrDemoV4, addrDemoV6] recvDemo sendFailDemo 3 (fun _ => dgramDemo) ⟨0⟩
      ⟨some ⟨1⟩, some ⟨2⟩⟩ rfl rfl 1 (by omega)
      (fun k hk => ⟨addrDemoV4, rfl⟩)
      (fun k j hk hj => ⟨6, by
        have hne : ¬(k = 1 ∧ j = 1) := by omega
        simp [sendFailDemo, hne]⟩)).2
    addrDemoV4 1 ⟨5⟩ (by simp) rfl
    (fun j hj => ⟨6, by
      have hne : ¬j = 1 := by omega
      simp [sendFailDemo, hne]⟩)
    rfl
  rw [h]
  rfl

/-- Witness for C9: with no destinations and failing bind oracles, sender
construction still succeeds with no sockets and the loop discards both
datagrams. -/
theorem forward_empty_destinations_demo :
    Senders.for_addresses (.error ⟨9⟩) (.error ⟨9⟩) [] = .ok ⟨none, none⟩ ∧
    forward tryIntoDemo (.error ⟨9⟩) (.error ⟨9⟩) (.Unicast addrDemoV4) [] recvDemo sendAllOk 2 =
      .ok ([], .running) :=
  forward_empty_destinations tryIntoDemo (.error ⟨9⟩) (.error ⟨9⟩) (.Unicast addrDemoV4)
    recvDemo sendAllOk 2 ⟨0⟩ rfl (fun _ _ => ⟨(dgramDemo, addrDemoV4), rfl⟩)

end UdpForwarder


